import Mathlib


/-!
# Verification of the past-papers scraper's metadata codec and ingestion pipeline

A shallow embedding, in Lean, of the TypeScript scraper's core logic:

* `src/utils/url-parser.ts` — `parsePaperUrl`, `generateStorageKey`, `SESSION_MAPPING`;
* `src/downloaders/papacambridge-scraper.ts` — `parsePaperFilename`, the year-range
  filter of `scrapePapers`;
* `src/storage/pdf-storage-service.ts` — `storePdf`, `batchStorePdfs`;
* `src/storage/r2_client_service.ts` (`ScraperStorageManager`) — the blob-store key
  template of `storePastPaper` / `hasPastPaper`;
* `src/storage/database-service.ts` — `insertPaper`, `findPaper`, `batchInsertPapers`;
* `src/index.ts` — the embedding-input filter of `PastPapersScraperApp.run`.

JavaScript strings are Lean `String`s; JS numbers that can be `NaN`/`Infinity` are
modelled by an explicit `JSNum` type; fallible code returns `Except String`/option
results; the asynchronous collaborators (HTTP download, R2, Postgres) are modelled as
pure oracles and explicit state threading, with the `Promise.all` batches linearized
sequentially.
-/
/-- The five paper-type codes of the scraper's zod enum
(`papacambridge-scraper.ts`, `PaperMetadataSchema.type`). -/
inductive PaperType where
  | qp | ms | gt | er | ci
deriving DecidableEq, Repr

/-- The string form of a paper-type code, as it appears in filenames and keys. -/
def PaperType.str : PaperType → String
  | .qp => "qp"
  | .ms => "ms"
  | .gt => "gt"
  | .er => "er"
  | .ci => "ci"

/-- Paper metadata in the shape of `url-parser.ts`'s `PaperMetadataSchema`
(all fields strings; `paperType` is the zod enum). -/
structure UrlPaperMetadata where
  examBoard : String
  level : String
  subject : String
  subjectCode : String
  year : String
  session : String
  paperNumber : String
  paperType : PaperType
  originalUrl : String
deriving DecidableEq, Repr

/-- Character-wise string transformation (JS `String.prototype.replace` with a
single-character class, and `toLowerCase`), done on the character list so that it
evaluates inside the kernel. -/
def stringMap (f : Char → Char) (s : String) : String :=
  ⟨s.data.map f⟩

/-- JS `toLowerCase` restricted to the ASCII inputs this codebase handles. -/
def toLowerStr (s : String) : String :=
  stringMap Char.toLower s

/-- `session.replace(/[\/\\]/g, '-')` from `generateStorageKey`. -/
def cleanSessionChar (c : Char) : Char :=
  if c = '/' ∨ c = '\\' then '-' else c

/-- `generateStorageKey` from `url-parser.ts` (lines 125-132): the R2 storage key
template, including its `past-papers/` root prefix. -/
def generateStorageKey (m : UrlPaperMetadata) : String :=
  let cleanSession := stringMap cleanSessionChar m.session
  "past-papers/" ++ toLowerStr m.examBoard ++ "/" ++ toLowerStr m.level ++ "/" ++
    m.subjectCode ++ "/" ++ m.year ++ "/" ++ cleanSession ++ "/" ++
    m.paperNumber ++ "_" ++ m.paperType.str ++ ".pdf"

/-- The storage-key template as amended: the `past-papers/` root, then the six
`/`-separated segments (exam board and level lowercased, path-unsafe session
characters replaced by `-`). Stated with `String.intercalate` so that it follows the
amended specification text rather than the source's concatenation. -/
def specStorageKeyAmended (m : UrlPaperMetadata) : String :=
  "past-papers/" ++ String.intercalate "/"
    [toLowerStr m.examBoard, toLowerStr m.level, m.subjectCode, m.year,
     stringMap cleanSessionChar m.session, m.paperNumber ++ "_" ++ m.paperType.str ++ ".pdf"]

/-- The `PaperIdentity` of the end-to-end scenario: level IGCSE, subject code 0580,
year 2024, session may-june, paper 12, mark scheme, with the canonical exam board. -/
def c1ExampleIdentity : UrlPaperMetadata :=
  { examBoard := "Cambridge", level := "IGCSE", subject := "Mathematics",
    subjectCode := "0580", year := "2024", session := "may-june",
    paperNumber := "12", paperType := .ms,
    originalUrl := "https://pastpapers.papacambridge.com/papers/caie/igcse-mathematics-0580" }

/-- The scraper configuration of `papacambridge-scraper.ts` (only the fields the
year filter reads). -/
structure ScraperConfig where
  startYear : Int
  endYear : Int
deriving DecidableEq, Repr

/-- The year filter of `PapaCambridgeScraper.scrapePapers` (line 100):
`yearInfo.year < this.config.endYear || yearInfo.year > this.config.startYear`
decides that a discovered year folder is skipped. -/
def shouldSkipYear (cfg : ScraperConfig) (year : Int) : Bool :=
  year < cfg.endYear || year > cfg.startYear

/-! ## The filename parser of `papacambridge-scraper.ts`

`parsePaperFilename` first tries the strict Cambridge pattern
`/(\d+)_([sw]\d+)_([a-z]+)(?:_(\d+))?\.pdf$/` and otherwise falls back to substring
heuristics.  The regexes are embedded as character-list matchers; because no
character class in these patterns overlaps the character required next, the greedy
JS semantics coincide with maximal munch, and the unanchored search is the scan over
start positions from the left. -/
/-- JS `String.prototype.includes`: `sub` occurs as a contiguous substring of `l`. -/
def containsSub (sub : List Char) : List Char → Bool
  | [] => sub.isPrefixOf []
  | c :: cs => sub.isPrefixOf (c :: cs) || containsSub sub cs

/-- The capture groups of the strict Cambridge filename regex. -/
structure CamGroups where
  syllabus : List Char
  sessionGroup : List Char
  typeCode : List Char
  variant : Option (List Char)
deriving DecidableEq, Repr

/-- One attempt of `/(\d+)_([sw]\d+)_([a-z]+)(?:_(\d+))?\.pdf$/` anchored at the head
of `l` and required to consume `l` entirely (the `$`). -/
def camMatchHere (l : List Char) : Option CamGroups :=
  let d1 := l.takeWhile Char.isDigit
  if d1 = [] then none else
  match l.dropWhile Char.isDigit with
  | u1 :: c :: r3 =>
    if u1 = '_' then
      if c = 's' ∨ c = 'w' then
        let d2 := r3.takeWhile Char.isDigit
        if d2 = [] then none else
        match r3.dropWhile Char.isDigit with
        | u2 :: r5 =>
          if u2 = '_' then
            let ty := r5.takeWhile Char.isLower
            if ty = [] then none else
            match r5.dropWhile Char.isLower with
            | u3 :: r7 =>
              if u3 = '_' then
                let dv := r7.takeWhile Char.isDigit
                if dv = [] then none
                else if r7.dropWhile Char.isDigit = ['.', 'p', 'd', 'f'] then
                  some ⟨d1, c :: d2, ty, some dv⟩
                else none
              else if u3 :: r7 = ['.', 'p', 'd', 'f'] then some ⟨d1, c :: d2, ty, none⟩
              else none
            | [] => none
          else none
        | [] => none
      else none
    else none
  | _ => none

/-- The unanchored search of the strict regex: the leftmost start position wins. -/
def camFind : List Char → Option CamGroups
  | [] => none
  | c :: cs =>
    match camMatchHere (c :: cs) with
    | some g => some g
    | none => camFind cs

/-- The continuation `[-_]?(\d+)` of the paper-number regex, with the greedy optional
separator: if a separator is present but no digit follows it, the zero-width
alternative also fails because the separator itself is not a digit. -/
def pNumAfter (rest : List Char) : Option (List Char) :=
  match rest with
  | [] => none
  | c :: cs =>
    if c = '-' ∨ c = '_' then
      let d := cs.takeWhile Char.isDigit
      if d = [] then none else some d
    else
      let d := (c :: cs).takeWhile Char.isDigit
      if d = [] then none else some d

/-- One attempt of `/(?:paper|p)[-_]?(\d+)/` at the head of `l`: the alternation
tries `paper` first and backtracks to `p` at the same position. -/
def paperMatchHere (l : List Char) : Option (List Char) :=
  match (if ['p', 'a', 'p', 'e', 'r'].isPrefixOf l then pNumAfter (l.drop 5) else none) with
  | some d => some d
  | none => if ['p'].isPrefixOf l then pNumAfter (l.drop 1) else none

/-- Leftmost search for `/(?:paper|p)[-_]?(\d+)/`. -/
def paperFind : List Char → Option (List Char)
  | [] => none
  | c :: cs =>
    match paperMatchHere (c :: cs) with
    | some d => some d
    | none => paperFind cs

/-- One attempt of `/(\d+)(?:\.pdf)?$/` at the head of `l`: a digit run followed by
nothing or by exactly `.pdf`. -/
def numMatchHere (l : List Char) : Option (List Char) :=
  let d := l.takeWhile Char.isDigit
  if d = [] then none else
  let r := l.dropWhile Char.isDigit
  if r = [] ∨ r = ['.', 'p', 'd', 'f'] then some d else none

/-- Leftmost search for `/(\d+)(?:\.pdf)?$/`. -/
def numFind : List Char → Option (List Char)
  | [] => none
  | c :: cs =>
    match numMatchHere (c :: cs) with
    | some d => some d
    | none => numFind cs

/-- The `switch (typeCode)` of `parsePaperFilename`: unknown codes default to `qp`. -/
def typeOfCode (tc : List Char) : PaperType :=
  if tc = ['q', 'p'] then .qp
  else if tc = ['m', 's'] then .ms
  else if tc = ['g', 't'] then .gt
  else if tc = ['e', 'r'] then .er
  else if tc = ['c', 'i'] then .ci
  else .qp

/-- Result of `parsePaperFilename`. -/
structure ParsedTypeNum where
  type : PaperType
  paperNumber : String
deriving DecidableEq, Repr

/-- `PapaCambridgeScraper.parsePaperFilename` (lines 309-364): lowercase the name,
try the strict Cambridge pattern, otherwise fall back to the substring heuristics
for the type and the `paper|p`-number / trailing-number heuristics for the number,
defaulting to `qp` / `"1"`. -/
def parsePaperFilename (filename : String) : ParsedTypeNum :=
  let name := (toLowerStr filename).data
  match camFind name with
  | some g =>
    { type := typeOfCode g.typeCode,
      paperNumber := match g.variant with
        | some v => ⟨v⟩
        | none => "1" }
  | none =>
    let type :=
      if containsSub ['m', 's'] name || containsSub "mark".data name then PaperType.ms
      else if containsSub ['g', 't'] name || containsSub "grade".data name ||
          containsSub "threshold".data name then PaperType.gt
      else if containsSub ['e', 'r'] name || containsSub "examiner".data name then PaperType.er
      else if containsSub ['c', 'i'] name || containsSub "confidential".data name then PaperType.ci
      else PaperType.qp
    let paperNumber :=
      match paperFind name with
      | some d => (⟨d⟩ : String)
      | none =>
        match numFind name with
        | some d => (⟨d⟩ : String)
        | none => "1"
    { type := type, paperNumber := paperNumber }

/-- The rendering direction of the round-trip property: the strict-pattern filename
`<syllabus>_<sessionCode><year2>_<type>[_<variant>].pdf`. -/
def renderCamFilename (syllabus sessionCode year2 : String) (t : PaperType)
    (variant : Option String) : String :=
  syllabus ++ "_" ++ sessionCode ++ year2 ++ "_" ++ t.str ++
    (match variant with
      | some v => "_" ++ v
      | none => "") ++ ".pdf"

/-! ## The canonical PDF-URL parser of `url-parser.ts` -/
/-- `SESSION_MAPPING` from `url-parser.ts` (lines 22-36). -/
def sessionMappingLookup (code : String) : Option String :=
  if code = "m" then some "March"
  else if code = "s" then some "May-June"
  else if code = "w" then some "Oct-Nov"
  else if code = "sp" then some "Feb-March"
  else if code = "su" then some "May-June"
  else if code = "au" then some "Oct-Nov"
  else if code = "march" then some "March"
  else if code = "may-june" then some "May-June"
  else if code = "oct-nov" then some "Oct-Nov"
  else if code = "feb-march" then some "Feb-March"
  else if code = "october-november" then some "Oct-Nov"
  else if code = "february-march" then some "Feb-March"
  else none

/-- Minimal model of `new URL(u).pathname` for absolute `http(s)` URLs without
userinfo: drop the scheme, drop the host (up to the first `/`, `?` or `#`), and
return the path with query and fragment stripped, `/` when the path is empty.
`none` models the `TypeError` thrown on a malformed URL. -/
def urlPathname (s : String) : Option (List Char) :=
  let cs := s.data
  let rest? :=
    if "https://".data.isPrefixOf cs then some (cs.drop 8)
    else if "http://".data.isPrefixOf cs then some (cs.drop 7)
    else none
  match rest? with
  | none => none
  | some r =>
    let host := r.takeWhile (fun c => !(c = '/' || c = '?' || c = '#'))
    if host = [] then none
    else
      let after := r.drop host.length
      let path := after.takeWhile (fun c => !(c = '?' || c = '#'))
      some (if path = [] then ['/'] else path)

/-- `pathname.split('/')` on the character list. -/
def splitSlash : List Char → List (List Char)
  | [] => [[]]
  | c :: cs =>
    match splitSlash cs with
    | [] => [[c]]
    | h :: t => if c = '/' then [] :: h :: t else (c :: h) :: t

/-- The regex `/^(.+)-(\d+)$/` of `parsePaperUrl`: with the greedy `.+`, the match
splits at the last `-` that is followed only by digits; both groups are non-empty. -/
def subjectCodeMatch (s : String) : Option (String × String) :=
  let rev := s.data.reverse
  let digitsRev := rev.takeWhile Char.isDigit
  if digitsRev = [] then none
  else
    match rev.dropWhile Char.isDigit with
    | '-' :: preRev =>
      if preRev = [] then none
      else some (⟨preRev.reverse⟩, ⟨digitsRev.reverse⟩)
    | _ => none

/-- The regex `/^(\d{4})-(.+)$/` of `parsePaperUrl`. -/
def yearSessionMatch (s : String) : Option (String × String) :=
  match s.data with
  | a :: b :: c :: d :: '-' :: rest =>
    if a.isDigit ∧ b.isDigit ∧ c.isDigit ∧ d.isDigit ∧ rest ≠ [] then
      some (⟨[a, b, c, d]⟩, ⟨rest⟩)
    else none
  | _ => none

/-- The regex `/^(\d+)_([a-z]+)(\d{2})_([a-z]+)_(\d+)\.pdf$/` of `parsePaperUrl`,
returning `(fileSubjectCode, sessionCode, yearCode, paperType, paperNumber)`. -/
def urlFilenameMatch (s : String) :
    Option (String × String × String × String × String) :=
  let l := s.data
  let d1 := l.takeWhile Char.isDigit
  if d1 = [] then none else
  match l.dropWhile Char.isDigit with
  | '_' :: r2 =>
    let letters := r2.takeWhile Char.isLower
    if letters = [] then none else
    match r2.dropWhile Char.isLower with
    | y1 :: y2 :: '_' :: r4 =>
      if y1.isDigit ∧ y2.isDigit then
        let letters2 := r4.takeWhile Char.isLower
        if letters2 = [] then none else
        match r4.dropWhile Char.isLower with
        | '_' :: r6 =>
          let d2 := r6.takeWhile Char.isDigit
          if d2 = [] then none
          else if r6.dropWhile Char.isDigit = ['.', 'p', 'd', 'f'] then
            some (⟨d1⟩, ⟨letters⟩, ⟨[y1, y2]⟩, ⟨letters2⟩, ⟨d2⟩)
          else none
        | _ => none
      else none
    | _ => none
  | _ => none

/-- The body of `parsePaperUrl`'s `try` block.  The code indexes `pathParts` from 1
even though `filter(Boolean)` has removed the leading empty segment, so index 1 is
the level segment, index 3 the year-session segment, and index 5 is past the end
(`undefined`; calling `.match` on it would raise a `TypeError`, modelled by the
corresponding error message). -/
def parsePaperUrlInner (pdfUrl : String) : Except String UrlPaperMetadata :=
  match urlPathname pdfUrl with
  | none => .error "Invalid URL"
  | some path =>
    let pathParts := ((splitSlash path).filter (· ≠ [])).map
      (fun l => (⟨l⟩ : String))
    if pathParts.length < 5 then .error ("Invalid URL structure: " ++ pdfUrl)
    else
      let examBoard := toLowerStr (pathParts.getD 1 "")
      let level := pathParts.getD 2 ""
      let subjectWithCode := pathParts.getD 3 ""
      let yearSession := pathParts.getD 4 ""
      match subjectCodeMatch subjectWithCode with
      | none => .error ("Cannot parse subject and code from: " ++ subjectWithCode)
      | some (subject, subjectCode) =>
        match yearSessionMatch yearSession with
        | none => .error ("Cannot parse year and session from: " ++ yearSession)
        | some (year, session) =>
          match pathParts.get? 5 with
          | none => .error "Cannot read properties of undefined (reading 'match')"
          | some filename =>
            match urlFilenameMatch filename with
            | none => .error ("Cannot parse filename: " ++ filename)
            | some (_, sessionCode, _, paperTypeStr, paperNumber) =>
              let mappedSession := (sessionMappingLookup sessionCode).getD session
              if paperTypeStr = "qp" ∨ paperTypeStr = "ms" then
                .ok { examBoard := if examBoard = "cie" then "Cambridge" else examBoard,
                      level := level, subject := subject, subjectCode := subjectCode,
                      year := year, session := mappedSession, paperNumber := paperNumber,
                      paperType := if paperTypeStr = "qp" then .qp else .ms,
                      originalUrl := pdfUrl }
              else
                .error ("Invalid enum value. Expected 'qp' | 'ms', received '" ++
                  paperTypeStr ++ "'")

/-- `parsePaperUrl` from `url-parser.ts` (lines 45-117): the `catch` wrapper
prefixes every error message with `Failed to parse paper URL: `. -/
def parsePaperUrl (pdfUrl : String) : Except String UrlPaperMetadata :=
  match parsePaperUrlInner pdfUrl with
  | .ok m => .ok m
  | .error e => .error ("Failed to parse paper URL: " ++ e)

/-! ## PDF storage service and database service

`storePdf`/`batchStorePdfs` (`pdf-storage-service.ts`) and
`insertPaper`/`findPaper`/`batchInsertPapers` (`database-service.ts`) are embedded
as state-passing functions: the blob store is the list of keys present, the record
store a list of rows plus the next serial id, and the HTTP download a deterministic
oracle `url → error message ⊕ byte count`.  `Promise.all` batches are linearized
sequentially; every `try/catch` becomes a branch returning the failure outcome. -/
/-- `PaperMetadata` of `papacambridge-scraper.ts` (the discovery-side schema). -/
structure ScraperMeta where
  title : String
  year : Int
  session : String
  paperNumber : String
  type : PaperType
  subject : String
  level : String
  syllabus : String
  originalUrl : String
  downloadUrl : String
  filename : String
deriving DecidableEq, Repr

/-- The blob-store key template shared by `ScraperStorageManager.storePastPaper`,
`hasPastPaper` and `getPdfUrl` (`r2_client_service.ts`). -/
def pastPaperKey (examBoard level subjectCode year session paperNumber : String)
    (paperType : PaperType) : String :=
  "past-papers/" ++ toLowerStr examBoard ++ "/" ++ toLowerStr level ++ "/" ++
    subjectCode ++ "/" ++ year ++ "/" ++ session ++ "/" ++
    paperNumber ++ "_" ++ paperType.str ++ ".pdf"

/-- The natural-key arguments `storePdf` hands to the storage manager.  The
TypeScript source file reads property names (`examBoard`, `subjectCode`,
`paperType`) that do not exist on the scraper-side `PaperMetadata` it imports; the
compiled service shipped in the repository passes `'Cambridge'`,
`metadata.syllabus`, `metadata.year.toString()` and `metadata.type`, which is the
mapping modelled here. -/
def storageKeyOfMeta (m : ScraperMeta) : String :=
  pastPaperKey "Cambridge" m.level m.syllabus (toString m.year) m.session
    m.paperNumber m.type

/-- `StorageResult` of `pdf-storage-service.ts`; the optional booleans default to
`false` (absent). -/
structure StorageResult where
  success : Bool
  metadata : ScraperMeta
  r2Key : Option String := none
  r2Url : Option String := none
  error : Option String := none
  skipped : Bool := false
  reason : Option String := none
deriving DecidableEq, Repr

/-- One discovered paper: `{ downloadUrl, metadata }`. -/
structure Candidate where
  downloadUrl : String
  metadata : ScraperMeta
deriving DecidableEq, Repr

/-- The collaborators of the storage service: the (deterministic) download oracle
of `downloadPdfWithRetry` — error message or byte count — and the public R2
domain used by `generatePublicUrl`. -/
structure StoreEnv where
  download : String → Except String Nat
  domain : String

/-- The storage-service configuration fields the model reads. -/
structure StoreConfig where
  maxFileSizeMB : Nat
  concurrency : Nat
deriving DecidableEq, Repr

/-- `R2StorageClient.generatePublicUrl`. -/
def generatePublicUrl (env : StoreEnv) (key : String) : String :=
  "https://" ++ env.domain ++ "/" ++ key

/-- `toFixed(2)` of `len / (1024*1024)`: the byte count divided by a power of two
is exact in binary floating point, so JS's round-half-up at two decimals is the
integer rounding below. -/
def sizeMBtoFixed2 (len : Nat) : String :=
  let t := len * 100
  let q := t / 1048576
  let r := t % 1048576
  let rounded := if 1048576 ≤ 2 * r then q + 1 else q
  let frac := rounded % 100
  toString (rounded / 100) ++ "." ++
    (if frac < 10 then "0" ++ toString frac else toString frac)

/-- The oversize error message of `storePdf`. -/
def tooLargeMsg (cfg : StoreConfig) (len : Nat) : String :=
  "PDF too large: " ++ sizeMBtoFixed2 len ++ "MB (max " ++
    toString cfg.maxFileSizeMB ++ "MB)"

/-- `PdfStorageService.storePdf` (lines 64-143): dedup check against the blob
store, download, emptiness and size validation, then the R2 write; every `throw`
inside the `try` becomes a `success:false` outcome with the thrown message, and
the state (the set of stored keys) is returned alongside.  The float comparison
`sizeMB > maxFileSizeMB` is exact, equivalent to `len > maxFileSizeMB * 2^20`. -/
def storePdf (cfg : StoreConfig) (env : StoreEnv) (skipIfExists : Bool)
    (st : List String) (c : Candidate) : StorageResult × List String :=
  let key := storageKeyOfMeta c.metadata
  if skipIfExists ∧ key ∈ st then
    ({ success := true, metadata := c.metadata, skipped := true,
       reason := some "Paper already exists in storage" }, st)
  else
    match env.download c.downloadUrl with
    | .error e => ({ success := false, metadata := c.metadata, error := some e }, st)
    | .ok len =>
      if len = 0 then
        ({ success := false, metadata := c.metadata,
           error := some "Downloaded PDF is empty" }, st)
      else if cfg.maxFileSizeMB * 1048576 < len then
        ({ success := false, metadata := c.metadata,
           error := some (tooLargeMsg cfg len) }, st)
      else
        ({ success := true, metadata := c.metadata, r2Key := some key,
           r2Url := some (generatePublicUrl env key) }, key :: st)

/-- Sequential processing of a candidate list by `storePdf`, threading the
blob-store state (the linearization of one `Promise.all` batch). -/
def storeSeq (cfg : StoreConfig) (env : StoreEnv) (skip : Bool) :
    List String → List Candidate → List StorageResult × List String
  | st, [] => ([], st)
  | st, c :: cs =>
    let r := storePdf cfg env skip st c
    let rs := storeSeq cfg env skip r.2 cs
    (r.1 :: rs.1, rs.2)

/-- The `papers.slice(i, i + concurrency)` chunking of `batchStorePdfs`, written
with an explicit fuel (the list length bounds the number of chunks) so that it is
structurally recursive and evaluates inside the kernel. -/
def chunksAux (n : Nat) : Nat → List Candidate → List (List Candidate)
  | 0, _ => []
  | _, [] => []
  | fuel + 1, x :: xs => (x :: xs.take (n - 1)) :: chunksAux n fuel (xs.drop (n - 1))

/-- Chunks of width `n` (the last one possibly shorter). -/
def chunksList (n : Nat) (l : List Candidate) : List (List Candidate) :=
  chunksAux n l.length l

/-- `PdfStorageService.batchStorePdfs` (lines 152-191): process the candidates in
chunks of width `concurrency`, each chunk fully resolved before the next, results
concatenated in order. -/
def batchStorePdfs (cfg : StoreConfig) (env : StoreEnv) (skip : Bool)
    (st : List String) (papers : List Candidate) : List StorageResult × List String :=
  (chunksList cfg.concurrency papers).foldl
    (fun acc chunk =>
      let rs := storeSeq cfg env skip acc.2 chunk
      (acc.1 ++ rs.1, rs.2))
    ([], st)

/-- A JS number as the embedding vectors carry them: a finite value (payload
irrelevant to the validation logic, kept as an integer), `NaN`, or an infinity. -/
inductive JSNum where
  | finite (val : Int)
  | nan
  | inf
  | negInf
deriving DecidableEq, Repr

/-- `isNaN(v)` for a JS number. -/
def JSNum.isNaN : JSNum → Bool
  | .nan => true
  | _ => false

/-- `Number.isFinite(v)` for a JS number. -/
def JSNum.isFinite : JSNum → Bool
  | .finite _ => true
  | _ => false

/-- One row of `pastPapersTable` (`schema/pastPapers.ts`), restricted to the fields
the service reads and writes. -/
structure PastPaperRow where
  id : Nat
  examBoard : String
  subject : String
  subjectCode : String
  level : String
  year : String
  session : String
  paperNumber : String
  paperType : PaperType
  r2Url : String
  embedding : Option (List JSNum)
  embeddingModel : Option String
deriving DecidableEq, Repr

/-- The record store: the table rows plus the next serial id. -/
structure DbState where
  rows : List PastPaperRow
  nextId : Nat
deriving DecidableEq, Repr

/-- `DatabaseResult` of `database-service.ts`. -/
structure DatabaseResult where
  success : Bool
  metadata : ScraperMeta
  paperId : Option Nat := none
  error : Option String := none
  skipped : Bool := false
  reason : Option String := none
deriving DecidableEq, Repr

/-- `DatabaseService.findPaper` (lines 186-209): first row matching the natural
key (`examBoard 'CAIE'`, subject code, level, year, session, paper number, type). -/
def findPaper (db : DbState) (m : ScraperMeta) : Option PastPaperRow :=
  db.rows.find? (fun r =>
    r.examBoard == "CAIE" && r.subjectCode == m.syllabus && r.level == m.level &&
    r.year == toString m.year && r.session == m.session &&
    r.paperNumber == m.paperNumber && r.paperType == m.type)

/-- The wrong-length error message of `insertPaper`; the JS
`embedding?.length || 'undefined'` renders a length of 0 as `undefined`. -/
def invalidLengthMsg (e : List JSNum) : String :=
  "Invalid embedding: expected array of 1536 numbers, got " ++
    (if e.length = 0 then "undefined" else toString e.length)

/-- `DatabaseService.insertPaper` (lines 53-135): skip when the natural key is
already present; otherwise, when a vector is attached (any array, including the
empty one, is truthy), require length exactly 1536 and reject `NaN` entries
(`typeof val === 'number' && !isNaN(val)` — infinities pass), then insert the row;
thrown validation errors become `success:false` results and leave the table
unchanged. -/
def insertPaper (db : DbState) (m : ScraperMeta) (r2Url : String)
    (embedding : Option (List JSNum)) (embeddingModel : Option String) :
    DatabaseResult × DbState :=
  match findPaper db m with
  | some row =>
    ({ success := true, metadata := m, paperId := some row.id, skipped := true,
       reason := some "Paper already exists in database" }, db)
  | none =>
    let newRow : PastPaperRow :=
      { id := db.nextId, examBoard := "CAIE", subject := m.subject,
        subjectCode := m.syllabus, level := m.level, year := toString m.year,
        session := m.session, paperNumber := m.paperNumber, paperType := m.type,
        r2Url := r2Url, embedding := none, embeddingModel := embeddingModel }
    match embedding with
    | some e =>
      if e.length ≠ 1536 then
        ({ success := false, metadata := m, error := some (invalidLengthMsg e) }, db)
      else if ¬ (e.all (fun v => !v.isNaN)) = true then
        ({ success := false, metadata := m,
           error := some "Invalid embedding: all values must be valid numbers" }, db)
      else
        ({ success := true, metadata := m, paperId := some db.nextId },
         { rows := db.rows ++ [{ newRow with embedding := some e }],
           nextId := db.nextId + 1 })
    | none =>
      ({ success := true, metadata := m, paperId := some db.nextId },
       { rows := db.rows ++ [newRow], nextId := db.nextId + 1 })

/-- `EmbeddingResult` of `generateEmbeddings.ts` (metadata in the url-parser
shape). -/
structure EmbeddingResult where
  success : Bool
  metadata : UrlPaperMetadata
  embedding : Option (List JSNum) := none
  embeddingModel : Option String := none
  error : Option String := none
deriving DecidableEq, Repr

/-- Digit run to a natural number. -/
def digitsToNat (l : List Char) : Nat :=
  l.foldl (fun a c => a * 10 + (c.toNat - 48)) 0

/-- JS `parseInt` on the decimal strings this pipeline produces (an optional sign
followed by leading digits).  On a string with no leading digits JS yields `NaN`,
which no claim exercises; the model returns 0 there. -/
def jsParseInt (s : String) : Int :=
  match s.data with
  | '-' :: rest => -(digitsToNat (rest.takeWhile Char.isDigit) : Int)
  | l => (digitsToNat (l.takeWhile Char.isDigit) : Int)

/-- `DatabaseService.convertUrlMetadataToScraperMetadata` (lines 28-42). -/
def convertUrlMetadataToScraperMetadata (u : UrlPaperMetadata) : ScraperMeta :=
  { title := u.subject ++ " " ++ u.year ++ " " ++ u.session ++ " Paper " ++ u.paperNumber,
    year := jsParseInt u.year, session := u.session, paperNumber := u.paperNumber,
    type := u.paperType, subject := u.subject, level := u.level,
    syllabus := u.subjectCode, originalUrl := u.originalUrl,
    downloadUrl := u.originalUrl,
    filename := u.subjectCode ++ "_" ++ u.paperType.str ++ "_" ++ u.paperNumber ++ ".pdf" }

/-- `DatabaseService.createMetadataKey` (lines 497-499). -/
def createMetadataKey (m : ScraperMeta) : String :=
  "CAIE-" ++ m.level ++ "-" ++ m.syllabus ++ "-" ++ toString m.year ++ "-" ++
    m.session ++ "-" ++ m.paperNumber ++ "-" ++ m.type.str

/-- JS `Map.set`: overwrite an existing binding, otherwise append. -/
def mapSet (m : List (String × EmbeddingResult)) (k : String) (v : EmbeddingResult) :
    List (String × EmbeddingResult) :=
  if m.any (fun p => p.1 == k) then
    m.map (fun p => if p.1 == k then (k, v) else p)
  else m ++ [(k, v)]

/-- JS `Map.get`. -/
def mapGet (m : List (String × EmbeddingResult)) (k : String) : Option EmbeddingResult :=
  (m.find? (fun p => p.1 == k)).map (fun p => p.2)

/-- The embedding lookup map built at the top of `batchInsertPapers`. -/
def buildEmbeddingMap (rs : List EmbeddingResult) : List (String × EmbeddingResult) :=
  rs.foldl
    (fun m er =>
      mapSet m (createMetadataKey (convertUrlMetadataToScraperMetadata er.metadata)) er)
    []

/-- JS truthiness of the optional `r2Url` string: absent or empty is falsy. -/
def jsFalsyStrOpt : Option String → Bool
  | none => true
  | some s => s = ""

/-- The per-result loop of `batchInsertPapers`: failed or skipped storage results
pass straight through as `success:false` entries without touching the table,
stored results are inserted with their looked-up embedding. -/
def insertLoop (emap : List (String × EmbeddingResult)) :
    DbState → List StorageResult → List DatabaseResult × DbState
  | db, [] => ([], db)
  | db, sr :: srs =>
    if !sr.success || sr.skipped || jsFalsyStrOpt sr.r2Url then
      let r : DatabaseResult :=
        { success := false, metadata := sr.metadata,
          error := some (sr.error.getD "Storage operation failed or was skipped") }
      let rest := insertLoop emap db srs
      (r :: rest.1, rest.2)
    else
      let er := mapGet emap (createMetadataKey sr.metadata)
      let ins := insertPaper db sr.metadata (sr.r2Url.getD "")
        (er.bind EmbeddingResult.embedding) (er.bind EmbeddingResult.embeddingModel)
      let rest := insertLoop emap ins.2 srs
      (ins.1 :: rest.1, rest.2)

/-- `DatabaseService.batchInsertPapers` (lines 218-268). -/
def batchInsertPapers (db : DbState) (storageResults : List StorageResult)
    (embeddingResults : List EmbeddingResult) : List DatabaseResult × DbState :=
  insertLoop (buildEmbeddingMap embeddingResults) db storageResults

/-- One ingestion pass of `PastPapersScraperApp.run` restricted to its storage and
persistence steps (steps 2 and 4; embeddings disabled): `batchStorePdfs` with
`skipIfExists`, then `batchInsertPapers` over the storage results. -/
def runIngest (cfg : StoreConfig) (env : StoreEnv) (st : List String) (db : DbState)
    (cands : List Candidate) :
    (List StorageResult × List String) × (List DatabaseResult × DbState) :=
  let s := batchStorePdfs cfg env true st cands
  (s, batchInsertPapers db s.1 [])

/-- The skip outcome `storePdf` returns when the key is already present. -/
def skipStorageResult (m : ScraperMeta) : StorageResult :=
  { success := true, metadata := m, skipped := true,
    reason := some "Paper already exists in storage" }

/-- A concrete candidate for the witnesses: paper number `i`, downloaded from `u`. -/
def mkCandidate (i : Nat) (u : String) : Candidate :=
  { downloadUrl := u,
    metadata :=
      { title := "Mathematics 0580", year := 2024, session := "may-june",
        paperNumber := toString i, type := .qp, subject := "Mathematics",
        level := "IGCSE", syllabus := "0580", originalUrl := u, downloadUrl := u,
        filename := "0580_s24_qp_" ++ toString i ++ ".pdf" } }

/-- Witness configuration: default 50 MB ceiling, concurrency 5. -/
def wCfg : StoreConfig := { maxFileSizeMB := 50, concurrency := 5 }

/-- Witness oracle: `u3` downloads 53 MB (oversized), everything else 1000 bytes. -/
def wEnv : StoreEnv :=
  { download := fun u => if u = "u3" then .ok (53 * 1048576) else .ok 1000,
    domain := "bucket.r2.dev" }

/-- The pass-through result `batchInsertPapers` emits for a failed or skipped
storage outcome. -/
def passthroughDbResult (sr : StorageResult) : DatabaseResult :=
  { success := false, metadata := sr.metadata,
    error := some (sr.error.getD "Storage operation failed or was skipped") }

/-- Witness candidates for the idempotence theorem. -/
def c4Cands : List Candidate := [mkCandidate 11 "w1", mkCandidate 12 "w2"]

/-! ## The embedding-input filter of `PastPapersScraperApp.run` -/
/-- The per-result conversion `run` performs before enrichment (`index.ts` lines
171-183): scraper metadata to the embeddings-service shape, exam board fixed to
`CAIE`, `syllabus` renamed to `subjectCode`, the year stringified, and `type`
carried over as `paperType` (the `as 'qp' | 'ms'` cast checks nothing). -/
def convertForEmbeddings (r : StorageResult) : UrlPaperMetadata :=
  { examBoard := "CAIE", level := r.metadata.level, subject := r.metadata.subject,
    subjectCode := r.metadata.syllabus, year := toString r.metadata.year,
    session := r.metadata.session, paperNumber := r.metadata.paperNumber,
    paperType := r.metadata.type, originalUrl := r.metadata.originalUrl }

/-- The list `run` passes to `batchGenerateEmbeddings`: the genuinely stored
results (`success && !skipped`), converted, then restricted to
`paperType ∈ {qp, ms}`. -/
def metadataForEmbeddings (storageResults : List StorageResult) : List UrlPaperMetadata :=
  ((storageResults.filter (fun r => r.success && !r.skipped)).map
      convertForEmbeddings).filter
    (fun m => m.paperType == PaperType.qp || m.paperType == PaperType.ms)

/-- A stored result of the given paper type, for the C7 witness. -/
def wStoredResult (t : PaperType) (n : Nat) : StorageResult :=
  { success := true, metadata := { (mkCandidate n "u").metadata with type := t },
    r2Key := some "k", r2Url := some "https://bucket.r2.dev/k" }

/-- The metadata used by the C8 theorems. -/
def c8Meta : ScraperMeta := (mkCandidate 7 "u7").metadata

/-- A 1536-element vector whose last entry is `Infinity`. -/
def c8BadVector : List JSNum := List.replicate 1535 (JSNum.finite 0) ++ [JSNum.inf]

/-- A 1536-element vector with one `NaN` entry, for the C8 witness. -/
def c8NaNVector : List JSNum := List.replicate 1535 (JSNum.finite 0) ++ [JSNum.nan]

/-- A 1536-element all-finite vector, for the C8 witness. -/
def c8GoodVector : List JSNum := List.replicate 1536 (JSNum.finite 1)

/-! ## Theorems -/

/-- C1, counterexample: for the identity of the end-to-end scenario the key produced
by `generateStorageKey` is `past-papers/cambridge/igcse/0580/2024/may-june/12_ms.pdf`,
not the claimed `igcse/0580/2024/may-june/12_ms.pdf`: the claim misses the
`past-papers/` root and the exam-board segment. -/
theorem generateStorageKey_claim_counterexample :
    generateStorageKey c1ExampleIdentity =
      "past-papers/cambridge/igcse/0580/2024/may-june/12_ms.pdf" ∧
    generateStorageKey c1ExampleIdentity ≠ "igcse/0580/2024/may-june/12_ms.pdf" := by
  constructor
  · decide
  · decide

/-- C1, amended: `generateStorageKey` is a pure function of the identity returning
exactly `past-papers/<examBoard>/<level>/<subjectCode>/<year>/<session>/<paperNumber>_<paperType>.pdf`
with exam board and level lowercased and path-unsafe session characters replaced by
`-`; on the example identity (exam board `Cambridge`) the key is
`past-papers/cambridge/igcse/0580/2024/may-june/12_ms.pdf`. -/
theorem generateStorageKey_amended :
    (∀ m : UrlPaperMetadata, generateStorageKey m = specStorageKeyAmended m) ∧
    generateStorageKey c1ExampleIdentity =
      "past-papers/cambridge/igcse/0580/2024/may-june/12_ms.pdf" := by
  constructor
  · intro m
    simp [generateStorageKey, specStorageKeyAmended, String.intercalate,
      String.intercalate.go, String.append_assoc]
  · decide

/-- C9: the storage key depends only on the natural-key fields: two identities that
agree on exam board, level, subject code, year, session, paper number and paper type
receive the same key, whatever their subject or original URL. -/
theorem storageKey_natural_key_stability (m₁ m₂ : UrlPaperMetadata)
    (hb : m₁.examBoard = m₂.examBoard) (hl : m₁.level = m₂.level)
    (hc : m₁.subjectCode = m₂.subjectCode) (hy : m₁.year = m₂.year)
    (hs : m₁.session = m₂.session) (hn : m₁.paperNumber = m₂.paperNumber)
    (ht : m₁.paperType = m₂.paperType) :
    generateStorageKey m₁ = generateStorageKey m₂ := by
  simp [generateStorageKey, hb, hl, hc, hy, hs, hn, ht]

/-- Witness for C9 at two concrete identities that differ in `subject` and
`originalUrl` but share the natural key. -/
theorem storageKey_natural_key_stability_witness :
    generateStorageKey c1ExampleIdentity =
      generateStorageKey { c1ExampleIdentity with
        subject := "Maths", originalUrl := "https://mirror.example/0580" } :=
  storageKey_natural_key_stability _ _ rfl rfl rfl rfl rfl rfl rfl

/-- C5: with `startYear = 2024` and `endYear = 2020`, the filter processes exactly
the closed inclusive window: 2020 and 2024 are processed, 2019 and 2025 are skipped,
and in general a year is processed iff `2020 ≤ year ≤ 2024`. -/
theorem yearFilter_inclusive_window :
    shouldSkipYear ⟨2024, 2020⟩ 2020 = false ∧
    shouldSkipYear ⟨2024, 2020⟩ 2024 = false ∧
    shouldSkipYear ⟨2024, 2020⟩ 2019 = true ∧
    shouldSkipYear ⟨2024, 2020⟩ 2025 = true ∧
    ∀ year : Int, shouldSkipYear ⟨2024, 2020⟩ year = false ↔ 2020 ≤ year ∧ year ≤ 2024 := by
  refine ⟨by decide, by decide, by decide, by decide, fun year => ?_⟩
  simp only [shouldSkipYear, Bool.or_eq_false_iff, decide_eq_false_iff_not, not_lt]

/-! ### Helper lemmas for the round-trip proof -/
theorem charDigit_toNat {c : Char} (h : c.isDigit = true) : 48 ≤ c.toNat ∧ c.toNat ≤ 57 := by
  simpa [Char.isDigit] using h

theorem charLower_toNat {c : Char} (h : c.isLower = true) : 97 ≤ c.toNat ∧ c.toNat ≤ 122 := by
  simpa [Char.isLower] using h

theorem toLower_eq_self {c : Char} (h : c.toNat < 65 ∨ 90 < c.toNat) : c.toLower = c := by
  unfold Char.toLower
  have hne : ¬(65 ≤ c.toNat ∧ c.toNat ≤ 90) := by omega
  simp [hne]

theorem toLower_of_digit {c : Char} (h : c.isDigit = true) : c.toLower = c :=
  toLower_eq_self (Or.inl (by have := charDigit_toNat h; omega))

theorem toLower_of_lower {c : Char} (h : c.isLower = true) : c.toLower = c :=
  toLower_eq_self (Or.inr (by have := charLower_toNat h; omega))

theorem digit_not_lower {c : Char} (h : c.isDigit = true) : c.isLower = false := by
  have h1 := charDigit_toNat h
  cases hl : c.isLower with
  | false => rfl
  | true => have h2 := charLower_toNat hl; omega

theorem takeWhile_append_all {p : Char → Bool} {l r : List Char}
    (hl : ∀ c ∈ l, p c = true) (hr : ∀ c, r.head? = some c → p c = false) :
    (l ++ r).takeWhile p = l ∧ (l ++ r).dropWhile p = r := by
  induction l with
  | nil =>
    cases r with
    | nil => exact ⟨rfl, rfl⟩
    | cons c cs =>
      have hpc := hr c rfl
      exact ⟨by simp [List.takeWhile, hpc], by simp [List.dropWhile, hpc]⟩
  | cons a as ih =>
    have hpa : p a = true := hl a (by simp)
    obtain ⟨iht, ihd⟩ := ih (fun c hc => hl c (by simp [hc]))
    simp only [List.cons_append, List.takeWhile, List.dropWhile, hpa]
    exact ⟨by simp [iht], ihd⟩

theorem camFind_of_here {l : List Char} {g : CamGroups}
    (hne : l ≠ []) (h : camMatchHere l = some g) : camFind l = some g := by
  cases l with
  | nil => exact absurd rfl hne
  | cons c cs => simp [camFind, h]

theorem camMatchHere_eval (d1 : List Char) (sw : Char) (d2 ty : List Char)
    (var : Option (List Char))
    (hd1e : d1 ≠ []) (hd1 : ∀ c ∈ d1, c.isDigit = true)
    (hsw : sw = 's' ∨ sw = 'w')
    (hd2e : d2 ≠ []) (hd2 : ∀ c ∈ d2, c.isDigit = true)
    (htye : ty ≠ []) (hty : ∀ c ∈ ty, c.isLower = true)
    (hvar : ∀ s, var = some s → s ≠ [] ∧ ∀ c ∈ s, c.isDigit = true) :
    camMatchHere (d1 ++ '_' :: sw :: (d2 ++ '_' :: (ty ++
        (match var with | some s => '_' :: s | none => ([] : List Char)) ++
        ['.', 'p', 'd', 'f']))) =
      some ⟨d1, sw :: d2, ty, var⟩ := by
  cases var with
  | none =>
    simp only [List.append_nil]
    obtain ⟨t1, r1⟩ := takeWhile_append_all (p := Char.isDigit) (l := d1)
      (r := '_' :: sw :: (d2 ++ '_' :: (ty ++ ['.', 'p', 'd', 'f']))) hd1
      (by intro c hc; simp at hc; subst hc; decide)
    obtain ⟨t2, r2⟩ := takeWhile_append_all (p := Char.isDigit) (l := d2)
      (r := '_' :: (ty ++ ['.', 'p', 'd', 'f'])) hd2
      (by intro c hc; simp at hc; subst hc; decide)
    obtain ⟨t3, r3⟩ := takeWhile_append_all (p := Char.isLower) (l := ty)
      (r := ['.', 'p', 'd', 'f']) hty
      (by intro c hc; simp at hc; subst hc; decide)
    have hdot : ¬(('.' : Char) = '_') := by decide
    rcases hsw with h | h <;> subst h <;>
      simp only [camMatchHere, t1, r1, t2, r2, t3, r3, hd1e, hd2e, htye, hdot,
        eq_self_iff_true, true_or, or_true, if_true, if_false, ite_false, ite_true]
  | some s =>
    obtain ⟨hse, hs⟩ := hvar s rfl
    simp only [List.append_assoc, List.cons_append, List.nil_append]
    obtain ⟨t1, r1⟩ := takeWhile_append_all (p := Char.isDigit) (l := d1)
      (r := '_' :: sw :: (d2 ++ '_' :: (ty ++ '_' :: (s ++ ['.', 'p', 'd', 'f'])))) hd1
      (by intro c hc; simp at hc; subst hc; decide)
    obtain ⟨t2, r2⟩ := takeWhile_append_all (p := Char.isDigit) (l := d2)
      (r := '_' :: (ty ++ '_' :: (s ++ ['.', 'p', 'd', 'f']))) hd2
      (by intro c hc; simp at hc; subst hc; decide)
    obtain ⟨t3, r3⟩ := takeWhile_append_all (p := Char.isLower) (l := ty)
      (r := '_' :: (s ++ ['.', 'p', 'd', 'f'])) hty
      (by intro c hc; simp at hc; subst hc; decide)
    obtain ⟨t4, r4⟩ := takeWhile_append_all (p := Char.isDigit) (l := s)
      (r := ['.', 'p', 'd', 'f']) hs
      (by intro c hc; simp at hc; subst hc; decide)
    rcases hsw with h | h <;> subst h <;>
      simp only [camMatchHere, t1, r1, t2, r2, t3, r3, t4, r4, hd1e, hd2e, htye, hse,
        eq_self_iff_true, true_or, or_true, if_true, if_false, ite_false, ite_true]

theorem map_toLower_eq_self {l : List Char}
    (h : ∀ c ∈ l, c.isDigit = true ∨ c.isLower = true ∨ c = '_' ∨ c = '.') :
    l.map Char.toLower = l := by
  induction l with
  | nil => rfl
  | cons a as ih =>
    have ha := h a (by simp)
    have hta : a.toLower = a := by
      rcases ha with hd | hl | he | he
      · exact toLower_of_digit hd
      · exact toLower_of_lower hl
      · subst he; decide
      · subst he; decide
    simp [hta, ih (fun c hc => h c (by simp [hc]))]

theorem typeOfCode_str (t : PaperType) : typeOfCode t.str.data = t := by
  cases t <;> decide

theorem typeStr_all_lower (t : PaperType) : t.str.data ≠ [] ∧ ∀ c ∈ t.str.data, c.isLower = true := by
  cases t <;> exact ⟨by decide, by decide⟩

theorem roundtrip_core (syl y2 : String) (sw : Char) (t : PaperType) (variant : Option String)
    (hsw : sw = 's' ∨ sw = 'w')
    (hse : syl.data ≠ []) (hsd : ∀ c ∈ syl.data, c.isDigit = true)
    (hye : y2.data ≠ []) (hyd : ∀ c ∈ y2.data, c.isDigit = true)
    (hvar : ∀ s, variant = some s → s.data ≠ [] ∧ ∀ c ∈ s.data, c.isDigit = true) :
    parsePaperFilename (renderCamFilename syl ⟨[sw]⟩ y2 t variant) =
      ⟨t, variant.getD "1"⟩ := by
  obtain ⟨htye, hty⟩ := typeStr_all_lower t
  have m1 : syl.data.map Char.toLower = syl.data :=
    map_toLower_eq_self (fun c hc => Or.inl (hsd c hc))
  have m2 : y2.data.map Char.toLower = y2.data :=
    map_toLower_eq_self (fun c hc => Or.inl (hyd c hc))
  have mt : t.str.data.map Char.toLower = t.str.data :=
    map_toLower_eq_self (fun c hc => Or.inr (Or.inl (hty c hc)))
  have msw : sw.toLower = sw := by rcases hsw with h | h <;> subst h <;> decide
  have c1 : Char.toLower '_' = '_' := by decide
  have c2 : Char.toLower '.' = '.' := by decide
  have c3 : Char.toLower 'p' = 'p' := by decide
  have c4 : Char.toLower 'd' = 'd' := by decide
  have c5 : Char.toLower 'f' = 'f' := by decide
  cases variant with
  | none =>
    have hname : (toLowerStr (renderCamFilename syl ⟨[sw]⟩ y2 t none)).data =
        syl.data ++ '_' :: sw :: (y2.data ++ '_' :: (t.str.data ++ ['.', 'p', 'd', 'f'])) := by
      simp only [toLowerStr, stringMap, renderCamFilename, String.data_append,
        List.map_append, List.map_cons, List.map_nil, m1, m2, mt, msw, c1, c2, c3, c4, c5,
        List.append_assoc, List.cons_append, List.nil_append, List.append_nil]
    have hcm := camMatchHere_eval syl.data sw y2.data t.str.data none
      hse hsd hsw hye hyd htye hty (fun s hs => by cases hs)
    simp only [List.append_nil] at hcm
    have hfind : camFind (syl.data ++ '_' :: sw :: (y2.data ++ '_' ::
        (t.str.data ++ ['.', 'p', 'd', 'f']))) =
        some ⟨syl.data, sw :: y2.data, t.str.data, none⟩ := by
      apply camFind_of_here
      · simp
      · exact hcm
    simp only [parsePaperFilename, hname, hfind, typeOfCode_str, Option.getD]
  | some vs =>
    obtain ⟨hve, hvd⟩ := hvar vs rfl
    have m3 : vs.data.map Char.toLower = vs.data :=
      map_toLower_eq_self (fun c hc => Or.inl (hvd c hc))
    have hname : (toLowerStr (renderCamFilename syl ⟨[sw]⟩ y2 t (some vs))).data =
        syl.data ++ '_' :: sw :: (y2.data ++ '_' ::
          (t.str.data ++ '_' :: (vs.data ++ ['.', 'p', 'd', 'f']))) := by
      simp only [toLowerStr, stringMap, renderCamFilename, String.data_append,
        List.map_append, List.map_cons, List.map_nil, m1, m2, mt, m3, msw, c1, c2, c3, c4, c5,
        List.append_assoc, List.cons_append, List.nil_append, List.append_nil]
    have hcm := camMatchHere_eval syl.data sw y2.data t.str.data (some vs.data)
      hse hsd hsw hye hyd htye hty
      (fun s hs => by cases hs; exact ⟨hve, hvd⟩)
    simp only [List.append_assoc, List.cons_append] at hcm
    have hfind : camFind (syl.data ++ '_' :: sw :: (y2.data ++ '_' ::
        (t.str.data ++ '_' :: (vs.data ++ ['.', 'p', 'd', 'f'])))) =
        some ⟨syl.data, sw :: y2.data, t.str.data, some vs.data⟩ := by
      apply camFind_of_here
      · simp
      · exact hcm
    simp only [parsePaperFilename, hname, hfind, typeOfCode_str, Option.getD]

/-- C3, counterexample: the filename `0580_sp24_qp_12.pdf` is valid under the spec's
strict pattern (syllabus `0580`, session code `sp` — a code the repository's
`SESSION_MAPPING` recognises as Feb-March — two-digit year `24`, type `qp`, variant
`12`), but the strict regex of `parsePaperFilename` only accepts `[sw]` session
codes, so the filename falls through to the heuristics, whose `/(?:paper|p)[-_]?(\d+)/`
rule matches `p24` inside `sp24`: the parse returns paper number `24`, not the
original variant `12`. -/
theorem parsePaperFilename_sp_counterexample :
    renderCamFilename "0580" "sp" "24" .qp (some "12") = "0580_sp24_qp_12.pdf" ∧
    parsePaperFilename "0580_sp24_qp_12.pdf" = ⟨.qp, "24"⟩ ∧
    ("24" : String) ≠ "12" :=
  ⟨by decide, by decide, by decide⟩

/-- C3, amended: for every combination whose session code is one the strict pattern
accepts (`s` or `w`), with non-empty all-digit syllabus, two-digit year and variant,
parsing the rendered filename recovers exactly the original type, and the original
variant as paper number (`"1"` when the variant is absent). -/
theorem parsePaperFilename_roundtrip_amended (syl sessionCode y2 : String)
    (t : PaperType) (variant : Option String)
    (hsyl : syl.data ≠ [] ∧ ∀ c ∈ syl.data, c.isDigit = true)
    (hsc : sessionCode = "s" ∨ sessionCode = "w")
    (hy2 : y2.data ≠ [] ∧ ∀ c ∈ y2.data, c.isDigit = true)
    (hvar : ∀ s, variant = some s → s.data ≠ [] ∧ ∀ c ∈ s.data, c.isDigit = true) :
    parsePaperFilename (renderCamFilename syl sessionCode y2 t variant) =
      ⟨t, variant.getD "1"⟩ := by
  rcases hsc with h | h <;> subst h
  · exact roundtrip_core syl y2 's' t variant (Or.inl rfl) hsyl.1 hsyl.2 hy2.1 hy2.2 hvar
  · exact roundtrip_core syl y2 'w' t variant (Or.inr rfl) hsyl.1 hsyl.2 hy2.1 hy2.2 hvar

/-- Witness for the amended round trip at `0580_s24_ms_12.pdf`. -/
theorem parsePaperFilename_roundtrip_witness :
    parsePaperFilename (renderCamFilename "0580" "s" "24" .ms (some "12")) = ⟨.ms, "12"⟩ :=
  parsePaperFilename_roundtrip_amended "0580" "s" "24" .ms (some "12")
    ⟨by decide, by decide⟩ (Or.inl rfl) ⟨by decide, by decide⟩
    (fun s hs => by cases hs; exact ⟨by decide, by decide⟩)

/-- C2: on the spec's canonical URL, `parsePaperUrl` does not return the Cambridge
metadata — it throws.  `filter(Boolean)` drops the empty segment before the first
`/`, so the path has five parts indexed 0-4, while the code reads indices 1-5 as in
its own comments: `subjectWithCode` becomes the year-session segment `2024-March`,
which fails the `/^(.+)-(\d+)$/` subject match. -/
theorem parsePaperUrl_canonical_url_fails :
    parsePaperUrl "https://site/cie/IGCSE/Mathematics-0580/2024-March/0580_m24_qp_42.pdf" =
      .error "Failed to parse paper URL: Cannot parse subject and code from: 2024-March" := by
  rfl

/-! ### Structural lemmas about the storage pipeline -/
theorem chunksAux_flatten (n : Nat) :
    ∀ (fuel : Nat) (l : List Candidate), l.length ≤ fuel →
      (chunksAux n fuel l).flatten = l := by
  intro fuel
  induction fuel with
  | zero =>
    intro l hl
    cases l with
    | nil => rfl
    | cons x xs => simp at hl
  | succ f ih =>
    intro l hl
    cases l with
    | nil => rfl
    | cons x xs =>
      simp only [chunksAux, List.flatten_cons]
      rw [ih _ (by simp only [List.length_drop]; simp at hl; omega)]
      simp [List.take_append_drop]

theorem chunksList_flatten (n : Nat) (l : List Candidate) : (chunksList n l).flatten = l :=
  chunksAux_flatten n l.length l le_rfl

theorem storeSeq_append (cfg : StoreConfig) (env : StoreEnv) (skip : Bool)
    (st : List String) (l1 l2 : List Candidate) :
    storeSeq cfg env skip st (l1 ++ l2) =
      ((storeSeq cfg env skip st l1).1 ++
        (storeSeq cfg env skip (storeSeq cfg env skip st l1).2 l2).1,
       (storeSeq cfg env skip (storeSeq cfg env skip st l1).2 l2).2) := by
  induction l1 generalizing st with
  | nil => simp [storeSeq]
  | cons c cs ih => simp [storeSeq, ih]

theorem batchFold_eq (cfg : StoreConfig) (env : StoreEnv) (skip : Bool)
    (chunks : List (List Candidate)) (acc : List StorageResult) (st : List String) :
    chunks.foldl
      (fun acc chunk =>
        let rs := storeSeq cfg env skip acc.2 chunk
        (acc.1 ++ rs.1, rs.2)) (acc, st) =
      (acc ++ (storeSeq cfg env skip st chunks.flatten).1,
       (storeSeq cfg env skip st chunks.flatten).2) := by
  induction chunks generalizing acc st with
  | nil => simp [storeSeq]
  | cons ch chs ih =>
    simp only [List.foldl_cons, List.flatten_cons, ih, storeSeq_append, List.append_assoc]

theorem batch_eq_storeSeq (cfg : StoreConfig) (env : StoreEnv) (skip : Bool)
    (st : List String) (papers : List Candidate) :
    batchStorePdfs cfg env skip st papers = storeSeq cfg env skip st papers := by
  unfold batchStorePdfs
  rw [batchFold_eq]
  simp [chunksList_flatten]

theorem storePdf_cases (cfg : StoreConfig) (env : StoreEnv) (skip : Bool)
    (st : List String) (c : Candidate) :
    (∃ e, storePdf cfg env skip st c =
        ({ success := false, metadata := c.metadata, error := some e }, st)) ∨
    (skip = true ∧ storageKeyOfMeta c.metadata ∈ st ∧
      storePdf cfg env skip st c =
        ({ success := true, metadata := c.metadata, skipped := true,
           reason := some "Paper already exists in storage" }, st)) ∨
    storePdf cfg env skip st c =
      ({ success := true, metadata := c.metadata,
         r2Key := some (storageKeyOfMeta c.metadata),
         r2Url := some (generatePublicUrl env (storageKeyOfMeta c.metadata)) },
       storageKeyOfMeta c.metadata :: st) := by
  simp only [storePdf]
  repeat' split
  all_goals first
    | (next h => exact Or.inr (Or.inl ⟨h.1, h.2, rfl⟩))
    | exact Or.inl ⟨_, rfl⟩
    | exact Or.inr (Or.inr rfl)

theorem storePdf_metadata (cfg : StoreConfig) (env : StoreEnv) (skip : Bool)
    (st : List String) (c : Candidate) :
    (storePdf cfg env skip st c).1.metadata = c.metadata := by
  rcases storePdf_cases cfg env skip st c with ⟨e, h⟩ | ⟨_, _, h⟩ | h <;> rw [h]

theorem storePdf_fail (cfg : StoreConfig) (env : StoreEnv) (skip : Bool)
    (st : List String) (c : Candidate)
    (h : (storePdf cfg env skip st c).1.success = false) :
    (storePdf cfg env skip st c).2 = st ∧
    ((storePdf cfg env skip st c).1.error).isSome = true := by
  rcases storePdf_cases cfg env skip st c with ⟨e, hc⟩ | ⟨_, _, hc⟩ | hc <;> rw [hc] <;>
    rw [hc] at h <;> simp_all

theorem storePdf_state_sub (cfg : StoreConfig) (env : StoreEnv) (skip : Bool)
    (st : List String) (c : Candidate) :
    st ⊆ (storePdf cfg env skip st c).2 := by
  rcases storePdf_cases cfg env skip st c with ⟨e, hc⟩ | ⟨_, _, hc⟩ | hc <;> rw [hc]
  · exact fun a ha => ha
  · exact fun a ha => ha
  · exact fun a ha => List.mem_cons_of_mem _ ha

theorem storePdf_success_mem (cfg : StoreConfig) (env : StoreEnv)
    (st : List String) (c : Candidate)
    (h : (storePdf cfg env true st c).1.success = true) :
    storageKeyOfMeta c.metadata ∈ (storePdf cfg env true st c).2 := by
  rcases storePdf_cases cfg env true st c with ⟨e, hc⟩ | ⟨_, hm, hc⟩ | hc <;> rw [hc]
  · rw [hc] at h; simp_all
  · exact hm
  · exact List.mem_cons_self _ _

theorem storePdf_skip (cfg : StoreConfig) (env : StoreEnv) (st : List String)
    (c : Candidate) (h : storageKeyOfMeta c.metadata ∈ st) :
    storePdf cfg env true st c = (skipStorageResult c.metadata, st) := by
  unfold storePdf skipStorageResult
  exact if_pos ⟨rfl, h⟩

theorem storeSeq_state_sub (cfg : StoreConfig) (env : StoreEnv) (skip : Bool)
    (st : List String) (l : List Candidate) :
    st ⊆ (storeSeq cfg env skip st l).2 := by
  induction l generalizing st with
  | nil => exact fun a ha => ha
  | cons c cs ih =>
    exact fun a ha =>
      ih (storePdf cfg env skip st c).2 (storePdf_state_sub cfg env skip st c ha)

theorem storeSeq_success_keys (cfg : StoreConfig) (env : StoreEnv)
    (st : List String) (l : List Candidate)
    (h : ∀ r ∈ (storeSeq cfg env true st l).1, r.success = true) :
    ∀ c ∈ l, storageKeyOfMeta c.metadata ∈ (storeSeq cfg env true st l).2 := by
  induction l generalizing st with
  | nil => intro c hc; cases hc
  | cons c cs ih =>
    intro d hd
    have hhead : (storePdf cfg env true st c).1.success = true := by
      have := h (storePdf cfg env true st c).1 (by simp [storeSeq])
      exact this
    simp only [storeSeq]
    rcases List.mem_cons.mp hd with hd | hd
    · subst hd
      exact storeSeq_state_sub cfg env true _ cs
        (storePdf_success_mem cfg env st d hhead)
    · exact ih (storePdf cfg env true st c).2
        (fun r hr => h r (by simp only [storeSeq, List.mem_cons]; exact Or.inr hr)) d hd

theorem storeSeq_all_present (cfg : StoreConfig) (env : StoreEnv)
    (st : List String) (l : List Candidate)
    (h : ∀ c ∈ l, storageKeyOfMeta c.metadata ∈ st) :
    storeSeq cfg env true st l =
      (l.map (fun c => skipStorageResult c.metadata), st) := by
  induction l with
  | nil => rfl
  | cons c cs ih =>
    have hc := storePdf_skip cfg env st c (h c (by simp))
    simp only [storeSeq, hc, List.map_cons]
    rw [ih (fun d hd => h d (by simp [hd]))]

/-- C10: `batchStorePdfs` returns exactly one outcome per input candidate, in input
order, and the i-th outcome carries the i-th candidate's metadata — nothing is
dropped, duplicated or reordered, whatever mix of successes, failures and skips the
run produces. -/
theorem batchStorePdfs_shape (cfg : StoreConfig) (env : StoreEnv) (skip : Bool)
    (st : List String) (papers : List Candidate) :
    (batchStorePdfs cfg env skip st papers).1.map StorageResult.metadata =
      papers.map Candidate.metadata := by
  rw [batch_eq_storeSeq]
  induction papers generalizing st with
  | nil => rfl
  | cons c cs ih => simp [storeSeq, storePdf_metadata, ih]

/-- C6: partial-failure isolation of the storage batch.  If the candidate `x`
placed between `pre` and `post` fails (its `storePdf` outcome, taken at the state
the batch reaches after `pre`, has `success = false`), then its outcome carries an
error message and `x`'s own metadata, the batch over `pre ++ x :: post` is exactly
the outcomes of `pre`, then `x`'s failure outcome, then the outcomes of `post`
computed from the very same state — and removing `x` leaves the other outcomes and
the final blob-store state untouched.  `batchStorePdfs` is a total function: the
failure is confined to `x`'s slot and never aborts the batch. -/
theorem storePdf_failure_isolation (cfg : StoreConfig) (env : StoreEnv) (skip : Bool)
    (st : List String) (pre : List Candidate) (x : Candidate) (post : List Candidate)
    (hfail : (storePdf cfg env skip (storeSeq cfg env skip st pre).2 x).1.success = false) :
    ((storePdf cfg env skip (storeSeq cfg env skip st pre).2 x).1.error).isSome = true ∧
    (storePdf cfg env skip (storeSeq cfg env skip st pre).2 x).1.metadata = x.metadata ∧
    batchStorePdfs cfg env skip st (pre ++ x :: post) =
      ((storeSeq cfg env skip st pre).1 ++
        (storePdf cfg env skip (storeSeq cfg env skip st pre).2 x).1 ::
          (storeSeq cfg env skip (storeSeq cfg env skip st pre).2 post).1,
       (storeSeq cfg env skip (storeSeq cfg env skip st pre).2 post).2) ∧
    batchStorePdfs cfg env skip st (pre ++ post) =
      ((storeSeq cfg env skip st pre).1 ++
        (storeSeq cfg env skip (storeSeq cfg env skip st pre).2 post).1,
       (storeSeq cfg env skip (storeSeq cfg env skip st pre).2 post).2) := by
  obtain ⟨hst, herr⟩ := storePdf_fail cfg env skip (storeSeq cfg env skip st pre).2 x hfail
  refine ⟨herr, storePdf_metadata cfg env skip _ x, ?_, ?_⟩
  · rw [batch_eq_storeSeq, storeSeq_append]
    simp only [storeSeq, hst]
  · rw [batch_eq_storeSeq, storeSeq_append]

/-- Witness for C6: in a batch of five candidates where the third's payload is
oversized, the hypothesis of the isolation theorem holds, and the batch still
yields one outcome per candidate with exactly the third one failed. -/
theorem storePdf_failure_isolation_witness :
    (storePdf wCfg wEnv true
        (storeSeq wCfg wEnv true [] [mkCandidate 1 "u1", mkCandidate 2 "u2"]).2
        (mkCandidate 3 "u3")).1.success = false ∧
    (batchStorePdfs wCfg wEnv true []
        ([mkCandidate 1 "u1", mkCandidate 2 "u2"] ++ mkCandidate 3 "u3" ::
          [mkCandidate 4 "u4", mkCandidate 5 "u5"])).1.map StorageResult.success =
      [true, true, false, true, true] := by
  have h := storePdf_failure_isolation wCfg wEnv true []
    [mkCandidate 1 "u1", mkCandidate 2 "u2"] (mkCandidate 3 "u3")
    [mkCandidate 4 "u4", mkCandidate 5 "u5"] (by decide)
  refine ⟨by decide, ?_⟩
  rw [h.2.2.1]
  decide

theorem insertLoop_all_skipped (emap : List (String × EmbeddingResult)) (db : DbState)
    (srs : List StorageResult) (h : ∀ r ∈ srs, r.skipped = true) :
    insertLoop emap db srs = (srs.map passthroughDbResult, db) := by
  induction srs generalizing db with
  | nil => rfl
  | cons sr srs ih =>
    have hs : sr.skipped = true := h sr (by simp)
    simp only [insertLoop, hs, Bool.or_true, Bool.true_or, if_true, List.map_cons]
    rw [ih db (fun r hr => h r (by simp [hr]))]
    rfl

/-- C4: idempotence of the ingestion pass.  First conjunct (the per-item skip
contract): whenever the natural-key existence check finds the blob key present,
`storePdf` returns `success:true, skipped:true`, leaves the store untouched, and
the outcome does not depend on the download oracle — no fetch happens.  Second
conjunct: if every outcome of a first `runIngest` pass over a candidate list was
successful, then a second pass over the same list — under any download oracle —
returns exactly the all-skipped storage outcomes, the unchanged blob store, the
pass-through persistence results, and the unchanged record store: the record-store
contents after the second run are identical to those after the first, and every
second-run item reports `skipped = true`. -/
theorem ingest_idempotent (cfg : StoreConfig) (env : StoreEnv) (st : List String)
    (db : DbState) (cands : List Candidate)
    (hok : ∀ r ∈ (runIngest cfg env st db cands).1.1, r.success = true) :
    (∀ (c : Candidate) (st' : List String), storageKeyOfMeta c.metadata ∈ st' →
        ∀ env' : StoreEnv, storePdf cfg env' true st' c = (skipStorageResult c.metadata, st')) ∧
    ∀ env' : StoreEnv,
      runIngest cfg env' (runIngest cfg env st db cands).1.2
          (runIngest cfg env st db cands).2.2 cands =
        ((cands.map (fun c => skipStorageResult c.metadata),
          (runIngest cfg env st db cands).1.2),
         (cands.map (fun c => passthroughDbResult (skipStorageResult c.metadata)),
          (runIngest cfg env st db cands).2.2)) := by
  constructor
  · intro c st' hmem env'
    exact storePdf_skip cfg env' st' c hmem
  · intro env'
    have hok' : ∀ r ∈ (storeSeq cfg env true st cands).1, r.success = true := by
      intro r hr
      exact hok r (by simpa [runIngest, batch_eq_storeSeq] using hr)
    have hkeys : ∀ c ∈ cands,
        storageKeyOfMeta c.metadata ∈ (runIngest cfg env st db cands).1.2 := by
      intro c hc
      have := storeSeq_success_keys cfg env st cands hok' c hc
      simpa [runIngest, batch_eq_storeSeq] using this
    have hstore := storeSeq_all_present cfg env' (runIngest cfg env st db cands).1.2
      cands hkeys
    have hskip : ∀ r ∈ cands.map (fun c => skipStorageResult c.metadata),
        r.skipped = true := by
      intro r hr
      obtain ⟨c, _, hc⟩ := List.mem_map.mp hr
      rw [← hc]
      rfl
    have hins := insertLoop_all_skipped (buildEmbeddingMap []) (runIngest cfg env st db cands).2.2
      (cands.map (fun c => skipStorageResult c.metadata)) hskip
    simp only [runIngest, batchInsertPapers, batch_eq_storeSeq] at hstore hins ⊢
    rw [hstore, hins, List.map_map]
    rfl

/-- Witness for C4: on two fresh candidates and an always-succeeding oracle the
first run stores both (all outcomes successful), and the theorem yields that the
second run returns exactly the all-skipped outcomes. -/
theorem ingest_idempotent_witness :
    (∀ r ∈ (runIngest wCfg wEnv [] ⟨[], 0⟩ c4Cands).1.1, r.success = true) ∧
    (runIngest wCfg wEnv (runIngest wCfg wEnv [] ⟨[], 0⟩ c4Cands).1.2
        (runIngest wCfg wEnv [] ⟨[], 0⟩ c4Cands).2.2 c4Cands).1.1 =
      c4Cands.map (fun c => skipStorageResult c.metadata) := by
  have h := ingest_idempotent wCfg wEnv [] ⟨[], 0⟩ c4Cands (by decide)
  refine ⟨by decide, ?_⟩
  rw [h.2 wEnv]

/-- C7: the enrichment stage is invoked exactly on the `qp`/`ms` subset of the
stored items: every metadata record handed to the embeddings service has paper
type `qp` or `ms`; every genuinely stored `qp`/`ms` item is included; and the
conversion of a `gt`, `er` or `ci` item never appears in the list handed to the
vectorizer. -/
theorem enrichment_type_filter (results : List StorageResult) :
    (∀ m ∈ metadataForEmbeddings results,
      m.paperType = PaperType.qp ∨ m.paperType = PaperType.ms) ∧
    (∀ r ∈ results, r.success = true → r.skipped = false →
      (r.metadata.type = PaperType.qp ∨ r.metadata.type = PaperType.ms) →
      convertForEmbeddings r ∈ metadataForEmbeddings results) ∧
    (∀ r ∈ results,
      (r.metadata.type = PaperType.gt ∨ r.metadata.type = PaperType.er ∨
        r.metadata.type = PaperType.ci) →
      convertForEmbeddings r ∉ metadataForEmbeddings results) := by
  refine ⟨?_, ?_, ?_⟩
  · intro m hm
    have := List.of_mem_filter hm
    simpa using this
  · intro r hr hs hsk ht
    apply List.mem_filter.mpr
    constructor
    · exact List.mem_map_of_mem convertForEmbeddings
        (List.mem_filter.mpr ⟨hr, by simp [hs, hsk]⟩)
    · simpa [convertForEmbeddings] using ht
  · intro r hr ht hmem
    have := List.of_mem_filter hmem
    rcases ht with h | h | h <;> simp [convertForEmbeddings, h] at this

/-- Witness for C7 on a mixed list with one `qp`, one `ms` and one `gt` item: the
`gt` conversion is excluded and the `qp` conversion included. -/
theorem enrichment_type_filter_witness :
    convertForEmbeddings (wStoredResult .gt 3) ∉
      metadataForEmbeddings
        [wStoredResult .qp 1, wStoredResult .ms 2, wStoredResult .gt 3] ∧
    convertForEmbeddings (wStoredResult .qp 1) ∈
      metadataForEmbeddings
        [wStoredResult .qp 1, wStoredResult .ms 2, wStoredResult .gt 3] :=
  ⟨(enrichment_type_filter _).2.2 (wStoredResult .gt 3) (by decide) (Or.inl rfl),
   (enrichment_type_filter _).2.1 (wStoredResult .qp 1) (by decide) rfl rfl (Or.inl rfl)⟩

/-! ## Vector validation on insert -/
theorem all_not_nan_eq (e : List JSNum) :
    (e.all fun v => !v.isNaN) = !(e.any JSNum.isNaN) := by
  induction e with
  | nil => rfl
  | cons v vs ih => simp [List.all_cons, List.any_cons, ih]

/-- C8, counterexample: a 1536-element vector containing `Infinity` is not
all-finite, yet `insertPaper` accepts it — the outcome succeeds and the row is
inserted with the non-finite vector stored verbatim.  The code's element check is
`typeof val === 'number' && !isNaN(val)`, which only rejects `NaN`. -/
theorem insertPaper_infinity_counterexample :
    c8BadVector.length = 1536 ∧
    c8BadVector.all JSNum.isFinite = false ∧
    (insertPaper ⟨[], 0⟩ c8Meta "https://bucket.r2.dev/k" (some c8BadVector)
        (some "text-embedding-3-small")).1.success = true ∧
    (insertPaper ⟨[], 0⟩ c8Meta "https://bucket.r2.dev/k" (some c8BadVector)
        (some "text-embedding-3-small")).2.rows.map PastPaperRow.embedding =
      [some c8BadVector] := by
  have hlen : c8BadVector.length = 1536 := by
    simp only [c8BadVector, List.length_append, List.length_replicate,
      List.length_cons, List.length_nil]
  have hall : c8BadVector.all (fun v => !v.isNaN) = true := by
    simp only [c8BadVector, List.all_eq_true]
    intro v hv
    rcases List.mem_append.mp hv with h | h
    · rw [List.eq_of_mem_replicate h]; rfl
    · rw [List.mem_singleton.mp h]; rfl
  refine ⟨hlen, ?_, ?_, ?_⟩
  · simp only [c8BadVector, List.all_append, List.all_cons, List.all_nil,
      JSNum.isFinite, Bool.and_true, Bool.and_false]
  · simp only [insertPaper, findPaper, List.find?_nil]
    rw [if_neg (by simp [hlen]), if_neg (not_not_intro hall)]
  · simp only [insertPaper, findPaper, List.find?_nil]
    rw [if_neg (by simp [hlen]), if_neg (not_not_intro hall)]
    rfl

/-- C8, amended: on an insert of a new record (natural key not yet present) with an
attached vector, `insertPaper` requires exactly length 1536 and rejects `NaN`
entries: any such failure yields a `success:false` outcome carrying an error
message and leaves the table unchanged; a 1536-element `NaN`-free vector — finite
or not — is accepted and the row is appended with the vector stored unchanged. -/
theorem insertPaper_vector_validation_amended (db : DbState) (m : ScraperMeta)
    (r2Url : String) (e : List JSNum) (em : Option String)
    (hnew : findPaper db m = none) :
    ((e.length ≠ 1536 ∨ e.any JSNum.isNaN = true) →
      (insertPaper db m r2Url (some e) em).1.success = false ∧
      ((insertPaper db m r2Url (some e) em).1.error).isSome = true ∧
      (insertPaper db m r2Url (some e) em).2 = db) ∧
    (e.length = 1536 → e.any JSNum.isNaN = false →
      (insertPaper db m r2Url (some e) em).1.success = true ∧
      (insertPaper db m r2Url (some e) em).2.rows =
        db.rows ++
          [{ id := db.nextId, examBoard := "CAIE", subject := m.subject,
             subjectCode := m.syllabus, level := m.level, year := toString m.year,
             session := m.session, paperNumber := m.paperNumber,
             paperType := m.type, r2Url := r2Url, embedding := some e,
             embeddingModel := em }]) := by
  constructor
  · intro hbad
    by_cases hl : e.length = 1536
    · have hnan : e.any JSNum.isNaN = true := by
        rcases hbad with h | h
        · exact absurd hl h
        · exact h
      have hall : ¬ (e.all fun v => !v.isNaN) = true := by
        rw [all_not_nan_eq, hnan]
        decide
      simp only [insertPaper, hnew]
      rw [if_neg (by simp [hl]), if_pos hall]
      exact ⟨rfl, rfl, rfl⟩
    · simp only [insertPaper, hnew]
      rw [if_pos hl]
      exact ⟨rfl, rfl, rfl⟩
  · intro hl hnan
    have hall : (e.all fun v => !v.isNaN) = true := by
      rw [all_not_nan_eq, hnan]
      rfl
    simp only [insertPaper, hnew]
    rw [if_neg (by simp [hl]), if_neg (not_not_intro hall)]
    exact ⟨rfl, rfl⟩

/-- Witness for the amended C8 theorem on a fresh table: the `NaN` vector is
rejected with no row inserted, the valid vector is accepted. -/
theorem insertPaper_vector_validation_witness :
    ((insertPaper ⟨[], 0⟩ c8Meta "u" (some c8NaNVector) none).1.success = false ∧
      (insertPaper ⟨[], 0⟩ c8Meta "u" (some c8NaNVector) none).2 = (⟨[], 0⟩ : DbState)) ∧
    (insertPaper ⟨[], 0⟩ c8Meta "u" (some c8GoodVector) none).1.success = true := by
  have hnan : c8NaNVector.any JSNum.isNaN = true := by
    simp only [c8NaNVector, List.any_eq_true]
    exact ⟨JSNum.nan, List.mem_append.mpr (Or.inr (List.mem_singleton.mpr rfl)), rfl⟩
  have hgood : c8GoodVector.any JSNum.isNaN = false := by
    simp only [c8GoodVector]
    rw [List.any_eq_false]
    intro v hv
    rw [List.eq_of_mem_replicate hv]
    decide
  have h1 := insertPaper_vector_validation_amended ⟨[], 0⟩ c8Meta "u" c8NaNVector none rfl
  have h2 := insertPaper_vector_validation_amended ⟨[], 0⟩ c8Meta "u" c8GoodVector none rfl
  have hglen : c8GoodVector.length = 1536 := by
    simp only [c8GoodVector, List.length_replicate]
  exact ⟨⟨(h1.1 (Or.inr hnan)).1, (h1.1 (Or.inr hnan)).2.2⟩, (h2.2 hglen hgood).1⟩
